import Mathlib

/-!
Verification of the scientific-writer progress/artifact core.

This file shallowly embeds the decision logic of
`src/scientific_writer/api.py` and `src/scientific_writer/core.py`:
the tool-event classifier, the text stage detector, the progress
emitter loop, the input-file extension classifier, the docx image
extractor, the output-directory resolver and the result aggregator's
status logic.  Python strings are modelled as Lean `String`
(operating on `String.data` character lists), machine floats used as
mtimes are modelled as `Int` (only comparisons matter), filesystem
and archive effects are modelled as explicit data (a listing that can
fail, entries whose read can fail), and Python exceptions become
explicit control paths mirroring the `try/except` placement in the
source.
-/

/-! ### String helpers mirroring the Python primitives used by the source -/

/-- ASCII lower-casing of one character, as `str.lower` does on the
ASCII strings handled by the source. -/
def lowerChar (c : Char) : Char :=
  if 65 ≤ c.toNat ∧ c.toNat ≤ 90 then Char.ofNat (c.toNat + 32) else c

/-- Python `s.lower()` on ASCII strings. -/
def lowerStr (s : String) : String := ⟨s.data.map lowerChar⟩

/-- Whitespace characters recognised by Python `str.split()` (ASCII part). -/
def isSpaceChar (c : Char) : Bool :=
  c = ' ' || c = '\t' || c = '\n' || c = '\r' || c = '\x0b' || c = '\x0c'

/-- Substring test on character lists: does `hay` contain `needle`? -/
def listContainsSub (hay needle : List Char) : Bool :=
  match hay with
  | [] => needle.isEmpty
  | _ :: t => needle.isPrefixOf hay || listContainsSub t needle

/-- Python `needle in hay` for strings. -/
def pyIn (needle hay : String) : Bool := listContainsSub hay.data needle.data

/-- Split off everything before the first occurrence of `sep`; the second
component is `none` when `sep` does not occur. -/
def splitChar1 (sep : Char) : List Char → List Char × Option (List Char)
  | [] => ([], none)
  | c :: cs =>
    if c = sep then ([], some cs)
    else
      let r := splitChar1 sep cs
      (c :: r.1, r.2)

/-- Python `s.split(sep, maxsplit)` for a one-character separator. -/
def pySplit (sep : Char) : Nat → List Char → List (List Char)
  | 0, s => [s]
  | n + 1, s =>
    match splitChar1 sep s with
    | (a, none) => [a]
    | (a, some rest) => a :: pySplit sep n rest

/-- Unbounded split (enough fuel for every occurrence of the separator). -/
def splitAllChar (sep : Char) (l : List Char) : List (List Char) :=
  pySplit sep l.length l

/-- Python `str.split()` with no argument: split on whitespace runs. -/
def wsTokensAux : List Char → List Char → List (List Char)
  | [], acc => if acc.isEmpty then [] else [acc.reverse]
  | c :: cs, acc =>
    if isSpaceChar c then
      if acc.isEmpty then wsTokensAux cs [] else acc.reverse :: wsTokensAux cs []
    else wsTokensAux cs (c :: acc)

def wsTokens (l : List Char) : List (List Char) := wsTokensAux l []

/-- Replace every (non-overlapping, left-to-right) occurrence of `pat`
by `rep`, with explicit fuel; fuel `l.length` always suffices. -/
def replaceAllAux (pat rep : List Char) : Nat → List Char → List Char
  | 0, l => l
  | _ + 1, [] => []
  | fuel + 1, c :: cs =>
    if pat ≠ [] ∧ pat.isPrefixOf (c :: cs) then
      rep ++ replaceAllAux pat rep fuel ((c :: cs).drop pat.length)
    else
      c :: replaceAllAux pat rep fuel cs

/-- Python `s.replace(pat, rep)`. -/
def replaceAllStr (pat rep s : String) : String :=
  ⟨replaceAllAux pat.data rep.data s.data.length s.data⟩

/-- Python `pathlib.Path(p).name`: the final path component. -/
def pathName (p : String) : String :=
  match ((splitAllChar '/' p.data).filter (fun c => !c.isEmpty)).getLast? with
  | some l => ⟨l⟩
  | none => ""

/-- Index of the last `.` in a filename, if any. -/
def lastDotIdx (n : List Char) : Option Nat :=
  match n.reverse.findIdx? (fun c => c == '.') with
  | some i => some (n.length - 1 - i)
  | none => none

/-- Python `pathlib.Path(p).suffix`: the extension of the final
component including the dot, `""` when there is none (a leading dot or
a trailing dot does not count, as in `pathlib`). -/
def pathSuffix (p : String) : String :=
  let n := (pathName p).data
  match lastDotIdx n with
  | some i => if 0 < i ∧ i < n.length - 1 then ⟨n.drop i⟩ else ""
  | none => ""

/-- Remove everything up to and including the first occurrence of `sep`. -/
def dropThroughFirst (sep : Char) : List Char → List Char
  | [] => []
  | c :: cs => if c = sep then cs else dropThroughFirst sep cs

/-- Map used by the topic extraction: delimiter to space. -/
def underscoreToSpace (c : Char) : Char := if c = '_' then ' ' else c

/-! ### Extension taxonomy (`core.py`, `get_*_extensions` and the
classification chain of `process_data_files`) -/

/-- Embeds `core.py::get_image_extensions`. -/
def get_image_extensions : List String :=
  [".png", ".jpg", ".jpeg", ".gif", ".bmp", ".tiff", ".tif", ".svg", ".webp", ".ico"]

/-- Embeds `core.py::get_manuscript_extensions`. -/
def get_manuscript_extensions : List String := [".tex"]

/-- Embeds `core.py::get_source_extensions`. -/
def get_source_extensions : List String := [".md", ".docx", ".pdf"]

/-- Embeds `core.py::get_data_extensions`. -/
def get_data_extensions : List String :=
  [".csv", ".json", ".txt", ".xlsx", ".xls", ".tsv", ".xml", ".yaml", ".yml", ".sql"]

inductive FileCategory where
  | manuscript
  | image
  | data
  | source
deriving DecidableEq

/-- The destination chain of `core.py::process_data_files` (lines
258-293), applied there to `file_path.suffix.lower()`: manuscript
first, then image, then data, everything else to source. -/
def classifyExtension (ext : String) : FileCategory :=
  if get_manuscript_extensions.contains ext then FileCategory.manuscript
  else if get_image_extensions.contains ext then FileCategory.image
  else if get_data_extensions.contains ext then FileCategory.data
  else FileCategory.source

/-! ### Progress classifiers (`api.py`) -/

/-- Stage list of `api.py::generate_paper` (also in `_analyze_progress`
and `_analyze_tool_use`). -/
def stageOrder : List String :=
  ["initialization", "planning", "research", "writing", "compilation", "complete"]

/-- Python `stage_order.index(s) if s in stage_order else 0`. -/
def stageIndex (s : String) : Nat :=
  match stageOrder.findIdx? (fun x => x == s) with
  | some i => i
  | none => 0

/-- Embeds `api.py::_detect_document_type`. -/
def _detect_document_type (file_path : String) : String :=
  let path_lower := lowerStr file_path
  if pyIn "slide" path_lower || pyIn "presentation" path_lower || pyIn "beamer" path_lower then
    "slides"
  else if pyIn "poster" path_lower then "poster"
  else if pyIn "report" path_lower then "report"
  else if pyIn "grant" path_lower || pyIn "proposal" path_lower then "grant"
  else "document"

/-- The `section_mappings` dict of `api.py::_get_section_from_filename`,
in insertion order (Python dict iteration order). -/
def sectionMappings : List (String × String) :=
  [("abstract", "abstract"),
   ("intro", "introduction"),
   ("introduction", "introduction"),
   ("method", "methods"),
   ("methods", "methods"),
   ("methodology", "methodology"),
   ("result", "results"),
   ("results", "results"),
   ("discussion", "discussion"),
   ("conclusion", "conclusion"),
   ("conclusions", "conclusions"),
   ("background", "background"),
   ("related", "related work"),
   ("experiment", "experiments"),
   ("experiments", "experiments"),
   ("evaluation", "evaluation"),
   ("appendix", "appendix"),
   ("supplement", "supplementary material")]

/-- The `for key, section in section_mappings.items()` loop: first key
that occurs as a substring wins. -/
def firstSectionMatch : List (String × String) → String → Option String
  | [], _ => none
  | kv :: rest, name_lower =>
    if pyIn kv.1 name_lower then some kv.2 else firstSectionMatch rest name_lower

/-- Embeds `filename.lower().replace('.tex', '').replace('.md', '')`. -/
def normalizeFilename (filename : String) : String :=
  replaceAllStr ".md" "" (replaceAllStr ".tex" "" (lowerStr filename))

/-- Embeds `api.py::_get_section_from_filename`. -/
def _get_section_from_filename (filename : String) : Option String :=
  firstSectionMatch sectionMappings (normalizeFilename filename)

/-- The argument mapping of one tool invocation; only the keys the
source reads are modelled (`file_path`, `path`, `command`, `query`,
`search_term`), each absent or present. -/
structure ToolInput where
  file_path : Option String
  path : Option String
  command : Option String
  query : Option String
  search_term : Option String
deriving DecidableEq

/-- Embeds `tool_input.get("file_path", tool_input.get("path", ""))`. -/
def toolFilePath (ti : ToolInput) : String := ti.file_path.getD (ti.path.getD "")

/-- Embeds `api.py::_analyze_tool_use`. -/
def _analyze_tool_use (tool_name : String) (tool_input : ToolInput)
    (current_stage : String) : Option (String × String) :=
  let current_idx := stageIndex current_stage
  let file_path := toolFilePath tool_input
  let command := tool_input.command.getD ""
  let filename := if file_path ≠ "" then pathName file_path else ""
  let doc_type := _detect_document_type file_path
  let tn := lowerStr tool_name
  if tn = "read" then
    if pyIn ".bib" file_path then some ("writing", "Reading bibliography: " ++ filename)
    else if pyIn ".tex" file_path then
      match _get_section_from_filename filename with
      | some sec => some ("writing", "Reading " ++ sec ++ " section")
      | none => some ("writing", "Reading " ++ filename)
    else if pyIn ".pdf" file_path then some ("research", "Analyzing PDF: " ++ filename)
    else if pyIn ".csv" file_path then some ("research", "Loading data from " ++ filename)
    else if pyIn ".json" file_path then some ("research", "Reading configuration: " ++ filename)
    else if pyIn ".md" file_path then some ("planning", "Reading " ++ filename)
    else if file_path ≠ "" then some (current_stage, "Reading " ++ filename)
    else none
  else if tn = "write" then
    if pyIn ".bib" file_path then some ("writing", "Creating bibliography with references")
    else if pyIn ".tex" file_path then
      match _get_section_from_filename filename with
      | some sec => some ("writing", "Writing " ++ sec ++ " section")
      | none =>
        if pyIn "main" (lowerStr filename) then
          some ("writing", "Creating main " ++ doc_type ++ " structure")
        else if current_idx < stageIndex "writing" then
          some ("writing", "Writing " ++ doc_type ++ ": " ++ filename)
        else some ("compilation", "Updating " ++ filename)
    else if pyIn ".md" file_path then
      if pyIn "progress" (lowerStr filename) then some ("writing", "Updating progress log")
      else if pyIn "readme" (lowerStr filename) then some ("complete", "Creating documentation")
      else some ("writing", "Writing " ++ filename)
    else if pyIn ".sty" file_path then some ("writing", "Creating style file: " ++ filename)
    else if pyIn ".cls" file_path then some ("writing", "Creating document class: " ++ filename)
    else if file_path ≠ "" then some (current_stage, "Creating " ++ filename)
    else none
  else if tn = "edit" then
    if pyIn ".tex" file_path then
      match _get_section_from_filename filename with
      | some sec => some ("writing", "Refining " ++ sec ++ " section")
      | none => some ("writing", "Editing " ++ filename)
    else if pyIn ".bib" file_path then some ("writing", "Updating bibliography")
    else if file_path ≠ "" then some (current_stage, "Editing " ++ filename)
    else none
  else if tn = "bash" then
    if pyIn "pdflatex" command then
      if pyIn "-output-directory" command then
        some ("compilation", "Compiling PDF with output directory")
      else some ("compilation", "Compiling LaTeX to PDF")
    else if pyIn "latexmk" command then
      some ("compilation", "Running full LaTeX compilation pipeline")
    else if pyIn "bibtex" command then
      some ("compilation", "Processing bibliography citations")
    else if pyIn "makeindex" command then
      some ("compilation", "Building document index")
    else if pyIn "mkdir" command then
      if pyIn "writing_outputs" command || pyIn "output" (lowerStr command) then
        some ("initialization", "Creating output directory")
      else if pyIn "figures" (lowerStr command) then
        some ("initialization", "Setting up figures directory")
      else if pyIn "drafts" (lowerStr command) then
        some ("initialization", "Setting up drafts directory")
      else some ("initialization", "Creating directory structure")
    else if pyIn "cp " command then
      if pyIn ".pdf" command then some ("complete", "Copying final PDF to output")
      else if pyIn ".tex" command then some ("complete", "Archiving LaTeX source")
      else some ("complete", "Organizing files")
    else if pyIn "mv " command then some ("complete", "Moving files to final location")
    else if pyIn "ls " command || pyIn "cat " command then none
    else if command ≠ "" then
      let cmd_preview :=
        match wsTokens command.data with
        | t :: _ => (⟨t⟩ : String)
        | [] => (⟨command.data.take 30⟩ : String)
      some (current_stage, "Running " ++ cmd_preview)
    else none
  else if pyIn "research" tn || pyIn "lookup" tn then
    let query_text := tool_input.query.getD ""
    if query_text ≠ "" then
      let truncated :=
        if 50 < query_text.data.length then (⟨query_text.data.take 50⟩ : String) ++ "..."
        else query_text
      some ("research", "Searching: " ++ truncated)
    else some ("research", "Searching literature databases")
  else if pyIn "search" tn || pyIn "web" tn then
    let query_text := tool_input.query.getD (tool_input.search_term.getD "")
    if query_text ≠ "" then
      let truncated :=
        if 40 < query_text.data.length then (⟨query_text.data.take 40⟩ : String) ++ "..."
        else query_text
      some ("research", "Web search: " ++ truncated)
    else some ("research", "Searching online resources")
  else none

/-- Embeds `api.py::_analyze_progress`, the text-buffer fallback stage detector. -/
def _analyze_progress (text current_stage : String) : String × Option String :=
  let text_lower := lowerStr text
  let current_idx := stageIndex current_stage
  if current_idx < stageIndex "compilation" ∧
      (pyIn "pdflatex" text_lower || pyIn "latexmk" text_lower
        || pyIn "compiling" text_lower) = true then
    ("compilation", some "Compiling document")
  else if current_idx < stageIndex "complete" ∧
      (pyIn "successfully compiled" text_lower || pyIn "pdf generated" text_lower) = true then
    ("complete", some "Finalizing output")
  else (current_stage, none)

/-! ### Progress emitter (`api.py::generate_paper`, event loop lines 218-298) -/

/-- One event of the producer stream: a text delta or a tool invocation. -/
inductive Event where
  | text (content : String)
  | tool (tool_name : String) (input : ToolInput)
deriving DecidableEq

/-- One emitted progress record (`ProgressUpdate(message, stage, details)`);
`details` carries `(tool name, tool_calls, files_created)` exactly when the
emission came from the tool path. -/
structure Progress where
  stage : String
  message : String
  details : Option (String × Nat × Nat)
deriving DecidableEq

/-- The mutable loop state of `generate_paper`: `current_stage`,
`last_message`, `accumulated_text`, `tool_call_count`, `files_written`. -/
structure EmitState where
  currentStage : String
  lastMessage : String
  accumulatedText : String
  toolCallCount : Nat
  filesWritten : List String
deriving DecidableEq

/-- Loop state at entry: stage `initialization`, empty last message,
empty text buffer, no tool calls, no files written. -/
def initState : EmitState :=
  { currentStage := "initialization", lastMessage := "", accumulatedText := "",
    toolCallCount := 0, filesWritten := [] }

/-- One iteration of the event loop body: returns the updated state and
the progress event emitted for this event, if any.  Text deltas append
to the accumulated buffer and consult `_analyze_progress` (emitting only
on a stage change with a fresh non-empty message); tool invocations bump
the call counter, track written files, and consult `_analyze_tool_use`
(emitting only when the candidate message differs from the last one). -/
def stepEvent (s : EmitState) : Event → EmitState × Option Progress
  | Event.text t =>
    let acc := s.accumulatedText ++ t
    let res := _analyze_progress acc s.currentStage
    match res.2 with
    | some m =>
      if res.1 ≠ s.currentStage ∧ m ≠ "" ∧ m ≠ s.lastMessage then
        ({ currentStage := res.1, lastMessage := m, accumulatedText := acc,
           toolCallCount := s.toolCallCount, filesWritten := s.filesWritten },
         some { stage := res.1, message := m, details := none })
      else ({ s with accumulatedText := acc }, none)
    | none => ({ s with accumulatedText := acc }, none)
  | Event.tool tool_name input =>
    let cnt := s.toolCallCount + 1
    let fp := toolFilePath input
    let fw :=
      if lowerStr tool_name = "write" ∧ fp ≠ "" then s.filesWritten ++ [fp]
      else s.filesWritten
    match _analyze_tool_use tool_name input s.currentStage with
    | some sm =>
      if sm.2 ≠ s.lastMessage then
        ({ currentStage := sm.1, lastMessage := sm.2, accumulatedText := s.accumulatedText,
           toolCallCount := cnt, filesWritten := fw },
         some { stage := sm.1, message := sm.2, details := some (tool_name, cnt, fw.length) })
      else ({ s with toolCallCount := cnt, filesWritten := fw }, none)
    | none => ({ s with toolCallCount := cnt, filesWritten := fw }, none)

/-- The whole event loop: the ordered list of progress events emitted
while consuming the stream. -/
def runEmitter (s : EmitState) : List Event → List Progress
  | [] => []
  | e :: es =>
    match (stepEvent s e).2 with
    | some pr => pr :: runEmitter (stepEvent s e).1 es
    | none => runEmitter (stepEvent s e).1 es

/-! ### Output directory resolver (`api.py::_find_most_recent_output`) -/

/-- One filesystem child of the output parent, with the data the
resolver touches: `is_dir()`, `stat().st_mtime` (modelled as `Int`
seconds) and whether `stat()` raises. -/
structure DirEntry where
  name : String
  isDir : Bool
  mtime : Int
  statFails : Bool
deriving DecidableEq

/-- The parent folder as the resolver sees it: either `iterdir()`
raises (missing/unreadable parent) or it yields a list of children. -/
inductive FolderState where
  | unlistable
  | listed (entries : List DirEntry)
deriving DecidableEq

/-- Python `max(ds, key)` for a nonempty list: the first element with
the greatest key (later elements replace only on strictly greater key). -/
def pyMaxBy (key : DirEntry → Int) : List DirEntry → Option DirEntry
  | [] => none
  | d :: ds => some (ds.foldl (fun cur x => if key cur < key x then x else cur) d)

/-- Embeds `api.py::_find_most_recent_output`.  The whole body sits in one
`try/except Exception: return None`; a failing `iterdir` or a failing
`stat` on any listed directory therefore yields `none`.  Otherwise:
filter children to directories, return `none` when there are none,
keep those with mtime at least `start_time - 5`, fall back to all
directories when that filter is empty, and take the most recent. -/
def _find_most_recent_output (output_folder : FolderState) (start_time : Int) :
    Option DirEntry :=
  match output_folder with
  | FolderState.unlistable => none
  | FolderState.listed entries =>
    let output_dirs := entries.filter (fun d => d.isDir)
    if output_dirs.isEmpty then none
    else if output_dirs.any (fun d => d.statFails) then none
    else
      let recent_dirs := output_dirs.filter (fun d => start_time - 5 ≤ d.mtime)
      let pool := if recent_dirs.isEmpty then output_dirs else recent_dirs
      pyMaxBy (fun d => d.mtime) pool

/-- The candidate pool the resolver maximises over: the recency-filtered
directories, or all directories when none pass the filter. -/
def resolverPool (entries : List DirEntry) (start_time : Int) : List DirEntry :=
  let output_dirs := entries.filter (fun d => d.isDir)
  let recent_dirs := output_dirs.filter (fun d => start_time - 5 ≤ d.mtime)
  if recent_dirs.isEmpty then output_dirs else recent_dirs

/-! ### Result aggregator status (`api.py::_build_paper_result`, lines 681-700) -/

/-- Python truthiness of an optional string (`if file_info['tex_final']:`). -/
def pyTruthyStr : Option String → Bool
  | none => false
  | some s => !(s == "")

/-- The status fragment of `api.py::_build_paper_result`:
`compilation_success = file_info['pdf_final'] is not None`; status starts
`"success"` and is downgraded to `"partial"` when only a final TeX is
truthy, else `"failed"`. -/
def buildStatus (pdf_final tex_final : Option String) : String × Bool :=
  let compilation_success := pdf_final.isSome
  let status :=
    if compilation_success then "success"
    else if pyTruthyStr tex_final then "partial"
    else "failed"
  (status, compilation_success)

/-- The topic fragment of `api.py::_build_paper_result`:
`parts = paper_dir.name.split('_', 2); if len(parts) >= 3:
topic = parts[2].replace('_', ' ')` (else the empty string). -/
def topicOf (dir_name : String) : String :=
  let parts := pySplit '_' 2 dir_name.data
  if 3 ≤ parts.length then ⟨(parts.getD 2 []).map underscoreToSpace⟩ else ""

/-- The remainder of the directory name after splitting on its first two
delimiter characters, stated as the claim states it (for comparison with
`topicOf`, which additionally replaces the remaining delimiters). -/
def remainderAfterTwo (dir_name : String) : String :=
  ⟨(pySplit '_' 2 dir_name.data).getD 2 []⟩

/-! ### Archive image extractor (`core.py::extract_images_from_docx`) -/

/-- One member of the zip archive: its internal path and whether
reading/writing its bytes raises. -/
structure ZipEntry where
  entryPath : String
  readFails : Bool
deriving DecidableEq

/-- The archive as `zipfile` sees it: `BadZipFile` on open, or a member list. -/
inductive DocxArchive where
  | badZip
  | entries (files : List ZipEntry)
deriving DecidableEq

/-- One record of the returned list (`name`, `path`, `source_docx`). -/
structure ExtractedImage where
  name : String
  path : String
  source_docx : String
deriving DecidableEq

/-- Embeds `f.startswith('word/media/')`. -/
def isMediaEntry (e : ZipEntry) : Bool :=
  ("word/media/" : String).data.isPrefixOf e.entryPath.data

/-- Embeds `Path(media_file).suffix.lower() in image_extensions`. -/
def isImageEntry (e : ZipEntry) : Bool :=
  get_image_extensions.contains (lowerStr (pathSuffix e.entryPath))

/-- The record appended for one extracted entry. -/
def mkExtractedRecord (docx_path figures_output : String) (e : ZipEntry) :
    ExtractedImage :=
  { name := pathName e.entryPath,
    path := figures_output ++ "/" ++ pathName e.entryPath,
    source_docx := pathName docx_path }

/-- The `for media_file in media_files` loop.  The `try` of the source
wraps the whole loop, so a raising read/write on one image entry stops
the loop; the handler outside returns the records accumulated so far. -/
def extractLoop (docx_path figures_output : String) :
    List ZipEntry → List ExtractedImage → List ExtractedImage
  | [], acc => acc
  | e :: rest, acc =>
    if isImageEntry e then
      if e.readFails then acc
      else extractLoop docx_path figures_output rest
        (acc ++ [mkExtractedRecord docx_path figures_output e])
    else extractLoop docx_path figures_output rest acc

/-- Embeds `core.py::extract_images_from_docx`: a bad archive is caught and
yields `[]`; otherwise members under `word/media/` are processed by the
loop above. -/
def extract_images_from_docx (docx_path figures_output : String) :
    DocxArchive → List ExtractedImage
  | DocxArchive.badZip => []
  | DocxArchive.entries all_files =>
    extractLoop docx_path figures_output (all_files.filter isMediaEntry) []

/-- Modelled from the spec: the extraction semantics the spec describes
for `extract_images_from_docx`, in which a read/write error on an
individual entry is skipped and the remaining entries are still
processed.  Used only to compare against the source behaviour. -/
def extractImagesSpecSkip (docx_path figures_output : String) :
    DocxArchive → List ExtractedImage
  | DocxArchive.badZip => []
  | DocxArchive.entries all_files =>
    (((all_files.filter isMediaEntry).filter isImageEntry).filter
        (fun e => !e.readFails)).map (mkExtractedRecord docx_path figures_output)

/-! ### Theorems -/

/-- The section loop returns the image of the first matching key, in
`List.find?` form. -/
theorem firstSectionMatch_eq_find (n : String) : ∀ l : List (String × String),
    firstSectionMatch l n = (l.find? (fun p => pyIn p.1 n)).map Prod.snd := by
  intro l
  induction l with
  | nil => rfl
  | cons hd tl ih =>
    simp only [firstSectionMatch, List.find?]
    cases hpy : pyIn hd.1 n with
    | true => simp [hpy]
    | false => simp [hpy, ih]

/-- Claim C6 (counterexample): the filename `methodology.tex` contains
the keys `method` and `methodology`, yet the inferred section is
`methods`, not the section of the longest matching key `methodology`. -/
theorem section_longest_key_counterexample :
    pyIn "methodology" (normalizeFilename "methodology.tex") = true ∧
    pyIn "method" (normalizeFilename "methodology.tex") = true ∧
    _get_section_from_filename "methodology.tex" = some "methods" ∧
    _get_section_from_filename "methodology.tex" ≠ some "methodology" := by
  refine ⟨by decide, by decide, by decide, by decide⟩

/-- Claim C6 (amended): when several keys of the section table match the
normalised filename, the earliest key in the fixed table order (not the
longest) determines the section; in particular a filename containing
`methodology` yields `methods`, via the earlier key `method`. -/
theorem section_first_match_wins :
    (∀ filename : String, _get_section_from_filename filename =
      (sectionMappings.find? (fun p => pyIn p.1 (normalizeFilename filename))).map
        Prod.snd) ∧
    _get_section_from_filename "methodology.tex" = some "methods" := by
  refine ⟨fun filename => firstSectionMatch_eq_find (normalizeFilename filename)
    sectionMappings, by decide⟩

/-- Claim C7 (counterexample): for the single bash event with command
`mkdir -p output/figures` the emitter emits `Creating output directory`
(the `output` substring check precedes the `figures` one), not
`Setting up figures directory`. -/
theorem mkdir_output_figures_counterexample :
    runEmitter initState
      [Event.tool "bash" ⟨none, none, some "mkdir -p output/figures", none, none⟩] =
      [{ stage := "initialization", message := "Creating output directory",
         details := some ("bash", 1, 0) }] ∧
    ("Creating output directory" : String) ≠ "Setting up figures directory" ∧
    ("Creating output directory" : String) ≠ "setting up figures directory" := by
  refine ⟨by decide, by decide, by decide⟩

/-- Claim C7 (amended): the stream consisting of one bash invocation of
`mkdir -p output/figures` makes the emitter emit exactly the progress
event `(initialization, Creating output directory)`, because the command
contains `output`; the figures-directory message is produced only for a
mkdir command without `writing_outputs`/`output`, such as
`mkdir -p figures`. -/
theorem mkdir_output_figures_emits_output_dir :
    runEmitter initState
      [Event.tool "bash" ⟨none, none, some "mkdir -p output/figures", none, none⟩] =
      [{ stage := "initialization", message := "Creating output directory",
         details := some ("bash", 1, 0) }] ∧
    _analyze_tool_use "bash" ⟨none, none, some "mkdir -p figures", none, none⟩
      "initialization" = some ("initialization", "Setting up figures directory") := by
  refine ⟨by decide, by decide⟩

/-- Claim C2: for scanner results (whose `tex_final` is never the empty
string), `compilation_success` holds iff a final PDF is present, the
status is `success` exactly when the final PDF is present, `partial`
when only a final TeX exists, and `failed` when neither exists. -/
theorem build_status_spec (pdf tex : Option String) (htex : tex ≠ some "") :
    ((buildStatus pdf tex).2 = true ↔ pdf.isSome = true) ∧
    ((buildStatus pdf tex).1 = "success" ↔ pdf.isSome = true) ∧
    (pdf = none → tex.isSome = true → (buildStatus pdf tex).1 = "partial") ∧
    (pdf = none → tex = none → (buildStatus pdf tex).1 = "failed") := by
  cases pdf with
  | some p => simp [buildStatus]
  | none =>
    cases tex with
    | none => simp [buildStatus, pyTruthyStr]
    | some t =>
      have ht : (t == "") = false := by
        cases hb : (t == "") with
        | false => rfl
        | true => exact absurd (by simp_all) htex
      simp [buildStatus, pyTruthyStr, ht]

/-- Concrete instance of `build_status_spec` at a scanner-shaped input. -/
theorem build_status_spec_witness :
    ((buildStatus none (some "out/main.tex")).2 = true ↔
      (none : Option String).isSome = true) ∧
    ((buildStatus none (some "out/main.tex")).1 = "success" ↔
      (none : Option String).isSome = true) ∧
    ((none : Option String) = none → (some "out/main.tex" : Option String).isSome = true →
      (buildStatus none (some "out/main.tex")).1 = "partial") ∧
    ((none : Option String) = none → (some "out/main.tex" : Option String) = none →
      (buildStatus none (some "out/main.tex")).1 = "failed") :=
  build_status_spec none (some "out/main.tex") (by decide)

/-- Claim C3: the extension classifier is total (always one of the four
categories) and deterministic, follows the priority order manuscript
over image over data over source, and sends any extension outside the
three tables to `source`. -/
theorem classify_extension_total (ext : String) :
    (classifyExtension ext = FileCategory.manuscript ∨
      classifyExtension ext = FileCategory.image ∨
      classifyExtension ext = FileCategory.data ∨
      classifyExtension ext = FileCategory.source) ∧
    (∀ ext2 : String, ext = ext2 → classifyExtension ext = classifyExtension ext2) ∧
    (get_manuscript_extensions.contains ext = true →
      classifyExtension ext = FileCategory.manuscript) ∧
    (get_image_extensions.contains ext = true →
      get_manuscript_extensions.contains ext = false →
      classifyExtension ext = FileCategory.image) ∧
    (get_data_extensions.contains ext = true →
      get_manuscript_extensions.contains ext = false →
      get_image_extensions.contains ext = false →
      classifyExtension ext = FileCategory.data) ∧
    (get_manuscript_extensions.contains ext = false →
      get_image_extensions.contains ext = false →
      get_data_extensions.contains ext = false →
      classifyExtension ext = FileCategory.source) := by
  unfold classifyExtension
  refine ⟨?_, ?_, ?_, ?_, ?_, ?_⟩ <;> split_ifs <;> simp_all

/-- Concrete instance of `classify_extension_total` at `.png`. -/
theorem classify_extension_total_witness :
    classifyExtension ".png" = FileCategory.image :=
  (classify_extension_total ".png").2.2.2.1 (by decide) (by decide)

/-- Claim C8: the text detector never returns a stage strictly earlier
than the current one; a non-`none` message always comes with a strictly
later stage; each rule (compilation, complete) fires only when the
current stage is strictly before its target; without a message the
current stage is returned unchanged; and once every target has been
reached (current stage `complete`) the result is `(current, none)`. -/
theorem analyze_progress_no_regress (t st : String) (hst : st ∈ stageOrder) :
    stageIndex st ≤ stageIndex (_analyze_progress t st).1 ∧
    ((_analyze_progress t st).2 ≠ none →
      stageIndex st < stageIndex (_analyze_progress t st).1) ∧
    ((_analyze_progress t st).1 = "compilation" → (_analyze_progress t st).2 ≠ none →
      stageIndex st < stageIndex "compilation") ∧
    ((_analyze_progress t st).1 = "complete" → (_analyze_progress t st).2 ≠ none →
      stageIndex st < stageIndex "complete") ∧
    ((_analyze_progress t st).2 = none → (_analyze_progress t st).1 = st) ∧
    (st = "complete" → _analyze_progress t st = (st, none)) := by
  fin_cases hst <;>
    (simp only [_analyze_progress]
     split_ifs with h1 h2 <;>
       first
         | decide
         | exact absurd h1.1 (by decide)
         | exact absurd h2.1 (by decide))

/-- Concrete instance of `analyze_progress_no_regress` at an empty text
buffer and the `planning` stage. -/
theorem analyze_progress_no_regress_witness :
    stageIndex "planning" ≤ stageIndex (_analyze_progress "" "planning").1 ∧
    ((_analyze_progress "" "planning").2 ≠ none →
      stageIndex "planning" < stageIndex (_analyze_progress "" "planning").1) ∧
    ((_analyze_progress "" "planning").1 = "compilation" →
      (_analyze_progress "" "planning").2 ≠ none →
      stageIndex "planning" < stageIndex "compilation") ∧
    ((_analyze_progress "" "planning").1 = "complete" →
      (_analyze_progress "" "planning").2 ≠ none →
      stageIndex "planning" < stageIndex "complete") ∧
    ((_analyze_progress "" "planning").2 = none →
      (_analyze_progress "" "planning").1 = "planning") ∧
    (("planning" : String) = "complete" → _analyze_progress "" "planning" = ("planning", none)) :=
  analyze_progress_no_regress "" "planning" (by decide)

/-- When the separator occurs, the tail component of `splitChar1` is
exactly the list after the first separator, and that tail has one
occurrence fewer. -/
theorem splitChar1_of_count_pos (sep : Char) : ∀ l : List Char, 0 < l.count sep →
    (splitChar1 sep l).2 = some (dropThroughFirst sep l) ∧
    (dropThroughFirst sep l).count sep = l.count sep - 1 := by
  intro l
  induction l with
  | nil => intro h; simp at h
  | cons c cs ih =>
    intro h
    by_cases hc : c = sep
    · subst hc
      simp [splitChar1, dropThroughFirst, List.count_cons_self]
    · have hcount : (c :: cs).count sep = cs.count sep := by
        rw [List.count_cons_of_ne (fun hs => hc hs.symm)]
      rw [hcount] at h
      obtain ⟨h1, h2⟩ := ih h
      refine ⟨?_, ?_⟩
      · simp [splitChar1, dropThroughFirst, hc, h1]
      · simp [dropThroughFirst, hc, h2, hcount]

/-- One step of the bounded split when the separator occurs. -/
theorem pySplit_succ (sep : Char) (n : Nat) (s a rest : List Char)
    (h : splitChar1 sep s = (a, some rest)) :
    pySplit sep (n + 1) s = a :: pySplit sep n rest := by
  simp only [pySplit, h]

/-- Claim C9 (amended): for a directory name with at least two delimiter
characters, the topic is the remainder after the first two delimiters
with every remaining delimiter replaced by a space. -/
theorem topic_replaces_delimiters (dir_name : String)
    (h : 2 ≤ dir_name.data.count '_') :
    topicOf dir_name =
      ⟨(dropThroughFirst '_' (dropThroughFirst '_' dir_name.data)).map
        underscoreToSpace⟩ := by
  obtain ⟨hs1, hc1⟩ := splitChar1_of_count_pos '_' dir_name.data (by omega)
  have e1 : splitChar1 '_' dir_name.data =
      ((splitChar1 '_' dir_name.data).1, some (dropThroughFirst '_' dir_name.data)) := by
    rw [← hs1]
  obtain ⟨hs2, _⟩ := splitChar1_of_count_pos '_' (dropThroughFirst '_' dir_name.data)
    (by omega)
  have e2 : splitChar1 '_' (dropThroughFirst '_' dir_name.data) =
      ((splitChar1 '_' (dropThroughFirst '_' dir_name.data)).1,
        some (dropThroughFirst '_' (dropThroughFirst '_' dir_name.data))) := by
    rw [← hs2]
  have hp : pySplit '_' 2 dir_name.data =
      [(splitChar1 '_' dir_name.data).1,
       (splitChar1 '_' (dropThroughFirst '_' dir_name.data)).1,
       dropThroughFirst '_' (dropThroughFirst '_' dir_name.data)] := by
    rw [show (2 : Nat) = 1 + 1 from rfl,
      pySplit_succ '_' 1 dir_name.data _ _ e1,
      pySplit_succ '_' 0 (dropThroughFirst '_' dir_name.data) _ _ e2]
    rfl
  simp [topicOf, hp]

/-- Concrete instance of `topic_replaces_delimiters`. -/
theorem topic_replaces_delimiters_witness :
    topicOf "a_b_c_d" =
      ⟨(dropThroughFirst '_' (dropThroughFirst '_' ("a_b_c_d" : String).data)).map
        underscoreToSpace⟩ :=
  topic_replaces_delimiters "a_b_c_d" (by decide)

/-- Claim C9 (counterexample): for the directory name
`20240101_120000_deep_learning` the remainder after the first two
delimiters is `deep_learning`, but the topic the aggregator stores is
`deep learning` — not equal to the remainder. -/
theorem topic_remainder_counterexample :
    topicOf "20240101_120000_deep_learning" = "deep learning" ∧
    remainderAfterTwo "20240101_120000_deep_learning" = "deep_learning" ∧
    topicOf "20240101_120000_deep_learning" ≠
      remainderAfterTwo "20240101_120000_deep_learning" := by
  refine ⟨by decide, by decide, by decide⟩

/-- The extraction loop returns the accumulated records followed by one
record per image entry up to (and excluding) the first image entry whose
read fails; entries after a failing one are not processed. -/
theorem extractLoop_characterization (dp fo : String) :
    ∀ (l : List ZipEntry) (acc : List ExtractedImage),
      extractLoop dp fo l acc =
        acc ++ ((l.filter isImageEntry).takeWhile (fun e => !e.readFails)).map
          (mkExtractedRecord dp fo) := by
  intro l
  induction l with
  | nil => intro acc; simp [extractLoop]
  | cons e rest ih =>
    intro acc
    cases himg : isImageEntry e with
    | false => simp [extractLoop, himg, List.filter_cons, ih]
    | true =>
      cases hrf : e.readFails with
      | true => simp [extractLoop, himg, hrf, List.filter_cons, List.takeWhile_cons]
      | false =>
        simp [extractLoop, himg, hrf, List.filter_cons, List.takeWhile_cons, ih]

/-- Claim C5 (amended): the extractor never propagates a failure — it is
a total function into record lists; a malformed archive yields the empty
list; a read/write error on an image entry is caught but ends the loop,
so the result is the records of the image entries under the media path
up to the first failing one; and the well-formed 2-images-plus-1-other
archive yields exactly the 2 image records. -/
theorem extract_images_never_raise :
    (∀ dp fo : String, extract_images_from_docx dp fo DocxArchive.badZip = []) ∧
    (∀ (dp fo : String) (l : List ZipEntry),
      extract_images_from_docx dp fo (DocxArchive.entries l) =
        (((l.filter isMediaEntry).filter isImageEntry).takeWhile
            (fun e => !e.readFails)).map (mkExtractedRecord dp fo)) ∧
    extract_images_from_docx "paper.docx" "figs" (DocxArchive.entries
      [⟨"word/media/image1.png", false⟩, ⟨"word/media/notes.txt", false⟩,
       ⟨"word/media/image2.jpeg", false⟩]) =
      [⟨"image1.png", "figs/image1.png", "paper.docx"⟩,
       ⟨"image2.jpeg", "figs/image2.jpeg", "paper.docx"⟩] := by
  refine ⟨fun dp fo => rfl, fun dp fo l => ?_, by decide⟩
  simp [extract_images_from_docx, extractLoop_characterization]

/-- Claim C5 (counterexample): in an archive whose media path holds
three image entries of which the second fails to read, the source
returns only the first record — the entry after the failing one is not
processed, contradicting per-entry isolation; the spec-described
skip-and-continue semantics would return two records. -/
theorem extract_entry_error_aborts_counterexample :
    extract_images_from_docx "paper.docx" "figs" (DocxArchive.entries
      [⟨"word/media/image1.png", false⟩, ⟨"word/media/image2.png", true⟩,
       ⟨"word/media/image3.png", false⟩]) =
      [⟨"image1.png", "figs/image1.png", "paper.docx"⟩] ∧
    extractImagesSpecSkip "paper.docx" "figs" (DocxArchive.entries
      [⟨"word/media/image1.png", false⟩, ⟨"word/media/image2.png", true⟩,
       ⟨"word/media/image3.png", false⟩]) =
      [⟨"image1.png", "figs/image1.png", "paper.docx"⟩,
       ⟨"image3.png", "figs/image3.png", "paper.docx"⟩] ∧
    extract_images_from_docx "paper.docx" "figs" (DocxArchive.entries
      [⟨"word/media/image1.png", false⟩, ⟨"word/media/image2.png", true⟩,
       ⟨"word/media/image3.png", false⟩]) ≠
      extractImagesSpecSkip "paper.docx" "figs" (DocxArchive.entries
      [⟨"word/media/image1.png", false⟩, ⟨"word/media/image2.png", true⟩,
       ⟨"word/media/image3.png", false⟩]) := by
  refine ⟨by decide, by decide, by decide⟩

/-- The Python-max fold keeps an element of the candidate set (or the
seed) whose key is greatest. -/
theorem foldl_pymax_spec (key : DirEntry → Int) :
    ∀ (ds : List DirEntry) (d : DirEntry),
      (ds.foldl (fun cur x => if key cur < key x then x else cur) d = d ∨
        ds.foldl (fun cur x => if key cur < key x then x else cur) d ∈ ds) ∧
      key d ≤ key (ds.foldl (fun cur x => if key cur < key x then x else cur) d) ∧
      ∀ x ∈ ds, key x ≤ key (ds.foldl (fun cur x => if key cur < key x then x else cur) d) := by
  intro ds
  induction ds with
  | nil => intro d; exact ⟨Or.inl rfl, le_refl _, by simp⟩
  | cons a as ih =>
    intro d
    simp only [List.foldl_cons]
    by_cases hda : key d < key a
    · rw [if_pos hda]
      obtain ⟨hm, hle, hall⟩ := ih a
      refine ⟨?_, le_trans (le_of_lt hda) hle, ?_⟩
      · rcases hm with hh | hh
        · exact Or.inr (by rw [hh]; exact List.mem_cons_self a as)
        · exact Or.inr (List.mem_cons_of_mem a hh)
      · intro x hx
        rcases List.mem_cons.mp hx with hh | hh
        · subst hh; exact hle
        · exact hall x hh
    · rw [if_neg hda]
      obtain ⟨hm, hle, hall⟩ := ih d
      refine ⟨?_, hle, ?_⟩
      · rcases hm with hh | hh
        · exact Or.inl hh
        · exact Or.inr (List.mem_cons_of_mem a hh)
      · intro x hx
        rcases List.mem_cons.mp hx with hh | hh
        · subst hh; exact le_trans (not_lt.mp hda) hle
        · exact hall x hh

/-- Python `max` over a nonempty list returns a member with a maximal key. -/
theorem pyMaxBy_spec (key : DirEntry → Int) (l : List DirEntry) (hl : l ≠ []) :
    ∃ d, pyMaxBy key l = some d ∧ d ∈ l ∧ ∀ x ∈ l, key x ≤ key d := by
  cases l with
  | nil => exact absurd rfl hl
  | cons a as =>
    obtain ⟨hm, hseed, hall⟩ := foldl_pymax_spec key as a
    refine ⟨_, rfl, ?_, ?_⟩
    · rcases hm with hh | hh
      · rw [hh]; exact List.mem_cons_self a as
      · exact List.mem_cons_of_mem a hh
    · intro x hx
      rcases List.mem_cons.mp hx with hh | hh
      · rw [hh]; exact hseed
      · exact hall x hh

/-- Claim C10: the resolver is total over filesystem states; an
unlistable parent yields `none`, a failing `stat` on any listed
directory yields `none`, and in every state the result is a plain
optional value. -/
theorem find_most_recent_total (st : FolderState) (T : Int) :
    (st = FolderState.unlistable → _find_most_recent_output st T = none) ∧
    (∀ entries, st = FolderState.listed entries →
      (∃ e, e ∈ entries.filter (fun d => d.isDir) ∧ e.statFails = true) →
      _find_most_recent_output st T = none) ∧
    (_find_most_recent_output st T = none ∨
      ∃ d, _find_most_recent_output st T = some d) := by
  refine ⟨?_, ?_, ?_⟩
  · intro h; subst h; rfl
  · intro entries heq hex
    subst heq
    obtain ⟨e, he, hf⟩ := hex
    have hne : (entries.filter (fun d => d.isDir)).isEmpty = false := by
      cases hh : entries.filter (fun d => d.isDir) with
      | nil => rw [hh] at he; simp at he
      | cons a l => rfl
    have hany : (entries.filter (fun d => d.isDir)).any (fun d => d.statFails) = true :=
      List.any_eq_true.mpr ⟨e, he, hf⟩
    simp [_find_most_recent_output, hne, hany]
  · cases hh : _find_most_recent_output st T with
    | none => exact Or.inl rfl
    | some d => exact Or.inr ⟨d, rfl⟩

/-- Concrete instances of `find_most_recent_total`: a missing parent and
a parent with one directory whose `stat` raises both resolve to `none`. -/
theorem find_most_recent_total_witness :
    _find_most_recent_output FolderState.unlistable 0 = none ∧
    _find_most_recent_output (FolderState.listed [⟨"a", true, 0, true⟩]) 0 = none :=
  ⟨(find_most_recent_total FolderState.unlistable 0).1 rfl,
   (find_most_recent_total (FolderState.listed [⟨"a", true, 0, true⟩]) 0).2.1
     [⟨"a", true, 0, true⟩] rfl ⟨⟨"a", true, 0, true⟩, by decide, rfl⟩⟩

/-- Resolver evaluation for three directories of which only the last two
pass the recency filter: the one with the greater mtime wins. -/
theorem resolver_three_dirs (ta tb tc T : Int) (h1 : ¬(T - 5 ≤ ta)) (h2 : T - 5 ≤ tb)
    (h3 : T - 5 ≤ tc) (h4 : tb < tc) (na nb nc : String) :
    _find_most_recent_output (FolderState.listed
      [⟨na, true, ta, false⟩, ⟨nb, true, tb, false⟩, ⟨nc, true, tc, false⟩]) T =
      some ⟨nc, true, tc, false⟩ := by
  have g1 : ¬(T ≤ ta + 5) := by omega
  have g2 : T ≤ tb + 5 := by omega
  have g3 : T ≤ tc + 5 := by omega
  simp [_find_most_recent_output, pyMaxBy, List.filter_cons, g1, g2, g3, h4]

/-- Resolver evaluation for a single directory older than the recency
window: the filter is empty and the fallback selects it anyway. -/
theorem resolver_fallback_one (ta T : Int) (h1 : ¬(T - 5 ≤ ta)) (na : String) :
    _find_most_recent_output (FolderState.listed [⟨na, true, ta, false⟩]) T =
      some ⟨na, true, ta, false⟩ := by
  have g1 : ¬(T ≤ ta + 5) := by omega
  have g2 : ta + 5 < T := by omega
  simp [_find_most_recent_output, pyMaxBy, List.filter_cons, g1, g2]

/-- Claim C4: on a parent whose directory stats succeed, the resolver
returns `none` exactly when there is no subdirectory; otherwise it
returns a directory of the candidate pool (the ones modified at or
after start minus 5 seconds, or all of them when none qualify) with the
greatest modification time.  In particular, for mtimes
`[T-10, T-2, T+1]` it picks the `T+1` directory, and for `[T-10]`
alone it falls back to the `T-10` one. -/
theorem find_most_recent_spec (entries : List DirEntry) (T : Int)
    (hok : ∀ e ∈ entries, e.statFails = false) :
    (entries.filter (fun d => d.isDir) = [] →
      _find_most_recent_output (FolderState.listed entries) T = none) ∧
    (entries.filter (fun d => d.isDir) ≠ [] →
      ∃ d, _find_most_recent_output (FolderState.listed entries) T = some d ∧
        d ∈ resolverPool entries T ∧
        ∀ x ∈ resolverPool entries T, x.mtime ≤ d.mtime) ∧
    _find_most_recent_output (FolderState.listed
      [⟨"a", true, T - 10, false⟩, ⟨"b", true, T - 2, false⟩,
       ⟨"c", true, T + 1, false⟩]) T = some ⟨"c", true, T + 1, false⟩ ∧
    _find_most_recent_output (FolderState.listed [⟨"a", true, T - 10, false⟩]) T =
      some ⟨"a", true, T - 10, false⟩ := by
  refine ⟨?_, ?_, ?_, ?_⟩
  · intro h
    simp [_find_most_recent_output, h]
  · intro hne
    have hfe : (entries.filter (fun d => d.isDir)).isEmpty = false := by
      cases hh : entries.filter (fun d => d.isDir) with
      | nil => exact absurd hh hne
      | cons a l => rfl
    have hany : (entries.filter (fun d => d.isDir)).any (fun d => d.statFails) = false := by
      rw [List.any_eq_false]
      intro x hx
      have hx2 := hok x (List.mem_filter.mp hx).1
      simp [hx2]
    have hpool : resolverPool entries T ≠ [] := by
      simp only [resolverPool]
      by_cases hre : ((entries.filter (fun d => d.isDir)).filter
          (fun d => T - 5 ≤ d.mtime)).isEmpty = true
      · rw [if_pos hre]; exact hne
      · rw [if_neg hre]
        intro hc
        rw [hc] at hre
        exact hre rfl
    obtain ⟨d, hd1, hd2, hd3⟩ :=
      pyMaxBy_spec (fun d => d.mtime) (resolverPool entries T) hpool
    refine ⟨d, ?_, hd2, hd3⟩
    have hval : _find_most_recent_output (FolderState.listed entries) T =
        pyMaxBy (fun d => d.mtime) (resolverPool entries T) := by
      simp [_find_most_recent_output, resolverPool, hfe, hany]
    rw [hval]
    exact hd1
  · exact resolver_three_dirs (T - 10) (T - 2) (T + 1) T (by omega) (by omega)
      (by omega) (by omega) "a" "b" "c"
  · exact resolver_fallback_one (T - 10) T (by omega) "a"

/-- Concrete instance of `find_most_recent_spec` at one directory and
start time zero. -/
theorem find_most_recent_spec_witness :
    (([⟨"d", true, 7, false⟩] : List DirEntry).filter (fun d => d.isDir) = [] →
      _find_most_recent_output (FolderState.listed [⟨"d", true, 7, false⟩]) 0 = none) ∧
    (([⟨"d", true, 7, false⟩] : List DirEntry).filter (fun d => d.isDir) ≠ [] →
      ∃ d, _find_most_recent_output (FolderState.listed [⟨"d", true, 7, false⟩]) 0 =
          some d ∧
        d ∈ resolverPool [⟨"d", true, 7, false⟩] 0 ∧
        ∀ x ∈ resolverPool [⟨"d", true, 7, false⟩] 0, x.mtime ≤ d.mtime) ∧
    _find_most_recent_output (FolderState.listed
      [⟨"a", true, (0 : Int) - 10, false⟩, ⟨"b", true, (0 : Int) - 2, false⟩,
       ⟨"c", true, (0 : Int) + 1, false⟩]) 0 = some ⟨"c", true, (0 : Int) + 1, false⟩ ∧
    _find_most_recent_output (FolderState.listed [⟨"a", true, (0 : Int) - 10, false⟩]) 0 =
      some ⟨"a", true, (0 : Int) - 10, false⟩ :=
  find_most_recent_spec [⟨"d", true, 7, false⟩] 0 (by decide)

/-- An accepted emission differs from the stored last message and
becomes the stored last message of the successor state. -/
theorem stepEvent_emit (s : EmitState) (e : Event) (s2 : EmitState) (pr : Progress)
    (h : stepEvent s e = (s2, some pr)) :
    pr.message ≠ s.lastMessage ∧ s2.lastMessage = pr.message := by
  cases e with
  | text t =>
    simp only [stepEvent] at h
    split at h
    · rename_i m hm
      split at h
      · rename_i hcond
        simp only [Prod.mk.injEq, Option.some.injEq] at h
        obtain ⟨hA, hB⟩ := h
        subst hA
        subst hB
        exact ⟨hcond.2.2, rfl⟩
      · simp at h
    · simp at h
  | tool tn input =>
    simp only [stepEvent] at h
    split at h
    · rename_i sm hsm
      split at h
      · rename_i hcond
        simp only [Prod.mk.injEq, Option.some.injEq] at h
        obtain ⟨hA, hB⟩ := h
        subst hA
        subst hB
        exact ⟨hcond, rfl⟩
      · simp at h
    · simp at h

/-- When no emission happens, the stored last message is unchanged. -/
theorem stepEvent_skip (s : EmitState) (e : Event) (s2 : EmitState)
    (h : stepEvent s e = (s2, none)) : s2.lastMessage = s.lastMessage := by
  cases e with
  | text t =>
    simp only [stepEvent] at h
    split at h
    · rename_i m hm
      split at h
      · simp at h
      · simp only [Prod.mk.injEq] at h
        obtain ⟨hA, _⟩ := h
        subst hA
        rfl
    · simp only [Prod.mk.injEq] at h
      obtain ⟨hA, _⟩ := h
      subst hA
      rfl
  | tool tn input =>
    simp only [stepEvent] at h
    split at h
    · rename_i sm hsm
      split at h
      · simp at h
      · simp only [Prod.mk.injEq] at h
        obtain ⟨hA, _⟩ := h
        subst hA
        rfl
    · simp only [Prod.mk.injEq] at h
      obtain ⟨hA, _⟩ := h
      subst hA
      rfl

/-- The stored last message is linked by disequality to every message
the emitter still produces: the loop invariant of the deduplication. -/
theorem runEmitter_chain (es : List Event) : ∀ s : EmitState,
    List.Chain (fun a b => a ≠ b) s.lastMessage
      ((runEmitter s es).map Progress.message) := by
  induction es with
  | nil => intro s; exact List.Chain.nil
  | cons e es ih =>
    intro s
    cases hstep : stepEvent s e with
    | mk s2 p =>
      have h1 : (stepEvent s e).1 = s2 := by rw [hstep]
      have h2 : (stepEvent s e).2 = p := by rw [hstep]
      cases p with
      | none =>
        have hl := stepEvent_skip s e s2 hstep
        simp only [runEmitter, h1, h2]
        rw [← hl]
        exact ih s2
      | some pr =>
        have he := stepEvent_emit s e s2 pr hstep
        simp only [runEmitter, h1, h2, List.map_cons]
        exact List.Chain.cons (Ne.symm he.1) (he.2 ▸ ih s2)

/-- Claim C1: the emitter never yields two consecutive progress events
with the same message — for every event stream the emitted message list
has pairwise-distinct neighbours; moreover every accepted emission both
differs from the stored last message and replaces it before the next
event is processed. -/
theorem progress_messages_dedup :
    (∀ events : List Event,
      ((runEmitter initState events).map Progress.message).Chain' (fun a b => a ≠ b)) ∧
    (∀ (s : EmitState) (e : Event) (s2 : EmitState) (pr : Progress),
      stepEvent s e = (s2, some pr) →
      pr.message ≠ s.lastMessage ∧ s2.lastMessage = pr.message) := by
  constructor
  · intro events
    have hch : List.Chain' (fun a b => a ≠ b)
        (initState.lastMessage :: (runEmitter initState events).map Progress.message) :=
      runEmitter_chain events initState
    exact hch.tail
  · exact fun s e s2 pr h => stepEvent_emit s e s2 pr h

/-- Concrete instance of `progress_messages_dedup`: a one-event stream
has duplicate-free messages, and its accepted emission updates the
stored last message. -/
theorem progress_messages_dedup_witness :
    ((runEmitter initState
        [Event.tool "bash" ⟨none, none, some "mkdir -p drafts", none, none⟩]).map
      Progress.message).Chain' (fun a b => a ≠ b) ∧
    (({ stage := "initialization", message := "Setting up drafts directory",
        details := some ("bash", 1, 0) } : Progress).message ≠ initState.lastMessage ∧
      ({ currentStage := "initialization", lastMessage := "Setting up drafts directory",
         accumulatedText := "", toolCallCount := 1,
         filesWritten := [] } : EmitState).lastMessage =
        ({ stage := "initialization", message := "Setting up drafts directory",
           details := some ("bash", 1, 0) } : Progress).message) :=
  ⟨progress_messages_dedup.1
      [Event.tool "bash" ⟨none, none, some "mkdir -p drafts", none, none⟩],
   progress_messages_dedup.2 initState
      (Event.tool "bash" ⟨none, none, some "mkdir -p drafts", none, none⟩)
      { currentStage := "initialization", lastMessage := "Setting up drafts directory",
        accumulatedText := "", toolCallCount := 1, filesWritten := [] }
      { stage := "initialization", message := "Setting up drafts directory",
        details := some ("bash", 1, 0) }
      (by decide)⟩
